import Mathlib

/-!
Shallow embedding of `make_omim_disease_database.py`.

The script is a batch ETL pipeline: it reads two gzipped delimited text
files, builds a CUI → DEF definition mapping from one, parses the other
into a mapping table, joins the two on `OMIM_CUI`, and emits a list of
five-field records.  We embed the pure core (everything after
`read_text_gz_all` has produced the list of lines): delimiter detection,
the definition-table parser `read_mgdef_map`, the mapping-table parser
`read_medgen_mapping`, and the join `build_list_of_dicts`.

Modelling conventions:
* A decompressed file is a `List String` of its lines.
* Python `str.strip()` is `pyStrip` (drops leading/trailing whitespace
  characters; Lean's `Char.isWhitespace` covers space, tab, CR, LF,
  which is what the inputs exercise).
* A pandas `DataFrame` is its list of column names plus a list of rows,
  each row the list of its cell strings (rows are assumed to have the
  header's arity; ragged rows and quoted fields are out of scope per the
  program's non-goals).  `pd.read_csv(..., sep=d, dtype=str,
  keep_default_na=False)` is modelled as splitting each non-empty line
  on the single-character delimiter `d`.
* A Python dict of strings is an association list with unique keys;
  `dict.get` is `mapGet?` / `mapGetD`.
-/

/-- Left part of Python `str.strip()` on a character list: drop leading
whitespace. -/
def stripLeft (l : List Char) : List Char :=
  l.dropWhile Char.isWhitespace

/-- Python `str.strip()` on a character list: drop leading whitespace,
then drop trailing whitespace. -/
def pyStripList (l : List Char) : List Char :=
  (stripLeft (stripLeft l).reverse).reverse

/-- Python `str.strip()`: remove leading and trailing whitespace. -/
def pyStrip (s : String) : String :=
  ⟨pyStripList s.data⟩

/-- Python `"c" in s` for a single-character needle `c`: character
membership in the string. -/
def charIn (c : Char) (s : String) : Bool :=
  s.data.contains c

/-- `detect_delim_from_header` from the source: prefer tab, then comma,
then pipe, defaulting to tab. -/
def detect_delim_from_header (header_line : String) : String :=
  if charIn '\t' header_line then "\t"
  else if charIn ',' header_line then ","
  else if charIn '|' header_line then "|"
  else "\t"

/-- Lookup in an association-list dictionary (`dict[k]` /
`dict.get(k)`): value of the first pair whose key equals `k`. -/
def mapGet? (m : List (String × String)) (k : String) : Option String :=
  (m.find? (fun p => p.1 == k)).map (fun p => p.2)

/-- Python `dict.get(k, d)`: the stored value, or the default `d` when
the key is absent. -/
def mapGetD (m : List (String × String)) (k : String) (d : String) : String :=
  (mapGet? m k).getD d

/-- Row loop of `df.drop_duplicates(subset=[key], keep="first")` for a
two-column frame keyed on the first column: a row is kept iff its key
has not been seen before it. -/
def dedupFirstAux (seen : List String) : List (String × String) → List (String × String)
  | [] => []
  | r :: rs =>
    if r.1 ∈ seen then dedupFirstAux seen rs
    else r :: dedupFirstAux (r.1 :: seen) rs

/-- `df.drop_duplicates(subset=[key], keep="first")`: keep the first row
for each key, in order. -/
def dedupFirst (l : List (String × String)) : List (String × String) :=
  dedupFirstAux [] l

instance {ε α : Type} [DecidableEq ε] [DecidableEq α] : DecidableEq (Except ε α) := fun a b =>
  match a, b with
  | .ok x, .ok y => if h : x = y then .isTrue (by simp [h]) else .isFalse (by simp [h])
  | .error x, .error y => if h : x = y then .isTrue (by simp [h]) else .isFalse (by simp [h])
  | .ok _, .error _ => .isFalse (by simp)
  | .error _, .ok _ => .isFalse (by simp)

/-- Python `str.lower()` (character-wise lowercasing; the column names
the program meets are ASCII). -/
def pyLower (s : String) : String :=
  ⟨s.data.map Char.toLower⟩

/-- Strip both cells of a (CUI, DEF) row, as
`df[col].astype(str).str.strip()` does column-wise. -/
def stripRow (r : String × String) : String × String :=
  (pyStrip r.1, pyStrip r.2)

/-- The row-processing core of `read_mgdef_map` (source lines 73-82):
strip the CUI and DEF cells, drop rows where either is empty, then
deduplicate by CUI keeping the first occurrence.  The resulting list of
pairs, its keys unique, is the `{CUI: DEF}` dictionary. -/
def mgdefFilterDedup (rows : List (String × String)) : List (String × String) :=
  dedupFirst ((rows.map stripRow).filter (fun r => r.1 != "" && r.2 != ""))

/-- The dict comprehension `{c.lower(): c for c in df.columns}` followed
by a label lookup: the actual name is the LAST column whose lowercase
form equals `lname` (later comprehension entries overwrite earlier
ones), and the cell position is that label's first index in the header
(pandas label indexing; the two coincide for distinct labels, the only
case the program meets). -/
def resolveCol (cols : List String) (lname : String) : Option Nat :=
  match (cols.filter (fun c => pyLower c == lname)).getLast? with
  | none => none
  | some actual => cols.findIdx? (fun c => c == actual)

/-- Split a character list at every occurrence of the delimiter
character (Python `str.split(d)` / the pandas field splitter for a
single-character separator on unquoted input). -/
def splitOnChar (d : Char) : List Char → List (List Char)
  | [] => [[]]
  | c :: rest =>
    if c == d then [] :: splitOnChar d rest
    else
      match splitOnChar d rest with
      | [] => [[c]]
      | f :: fs => (c :: f) :: fs

/-- Split a string on a delimiter string.  Every delimiter the program
produces (`detect_delim_from_header`) is a single character; longer
delimiters never occur and are mapped to the unsplit line. -/
def splitOnDelim (delim : String) (s : String) : List String :=
  match delim.data with
  | [d] => (splitOnChar d s.data).map String.mk
  | _ => [s]

/-- Skip leading blank lines: the `while idx < len(lines) and
lines[idx].strip() == ""` loop in both parsers. -/
def dropBlank (lines : List String) : List String :=
  lines.dropWhile (fun l => pyStrip l == "")

/-- Fatal errors of the two parsers: `ValueError("... appears empty")`
and `ValueError("MGDEF must contain columns 'CUI' and 'DEF' (found: ...)")`.
`missingColumns` carries the column names actually found, as the source
message does. -/
inductive TableError where
  | emptyInput : TableError
  | missingColumns (found : List String) : TableError
deriving DecidableEq, Repr

/-- `read_mgdef_map` from the lines of the decompressed MGDEF file to
the `{CUI: DEF}` dictionary.  Faithful to the source: the header is the
first non-blank line; the delimiter is detected from the STRIPPED
header, but the column names are the fields of the ORIGINAL header line
(pandas parses `"\n".join(lines[idx:])` whose first line is unstripped);
column resolution is case-insensitive; missing CUI or DEF raises the
`missingColumns` error naming the found columns.  Data lines are the
remaining non-empty lines, split on the delimiter (blank lines are
skipped by pandas). -/
def read_mgdef_map (lines : List String) : Except TableError (List (String × String)) :=
  match dropBlank lines with
  | [] => .error .emptyInput
  | headerRaw :: rest =>
    let delim := detect_delim_from_header (pyStrip headerRaw)
    let cols := splitOnDelim delim headerRaw
    match resolveCol cols "cui", resolveCol cols "def" with
    | some icui, some idef =>
      let dataRows := (rest.filter (fun l => l != "")).map (fun l => splitOnDelim delim l)
      .ok (mgdefFilterDedup (dataRows.map (fun r => (r.getD icui "", r.getD idef ""))))
    | _, _ => .error (.missingColumns cols)

/-- The parsed header columns of the MGDEF file: fields of the first
non-blank line, split on the delimiter detected from its stripped form
(empty when the file has no non-blank line). -/
def mgdefHeaderCols (lines : List String) : List String :=
  match dropBlank lines with
  | [] => []
  | headerRaw :: _ => splitOnDelim (detect_delim_from_header (pyStrip headerRaw)) headerRaw

/-- `read_medgen_mapping` from the lines of the decompressed mapping
file to (column names, rows).  The header is the first non-blank line,
stripped; when it starts with `#`, all leading `#` characters are
removed (`lstrip("#")`) and the result stripped again before delimiter
detection; column names are the fields of the cleaned header, each
stripped.  When every remaining line is blank the table has the header
columns and zero rows (`data_text == ""` branch); otherwise the
non-empty lines are the rows, split on the delimiter, every cell
stripped (`df.applymap(lambda x: x.strip())`). -/
def read_medgen_mapping (lines : List String) : Except TableError (List String × List (List String)) :=
  match dropBlank lines with
  | [] => .error .emptyInput
  | headerRaw :: rest =>
    let header_line := pyStrip headerRaw
    let header_clean :=
      if header_line.data.head? = some '#' then
        pyStrip (String.mk (header_line.data.dropWhile (fun c => c == '#')))
      else header_line
    let delim := detect_delim_from_header header_clean
    let header_cols := (splitOnDelim delim header_clean).map pyStrip
    if rest.all (fun l => pyStrip l == "") then
      .ok (header_cols, [])
    else
      let dataRows := (rest.filter (fun l => l != "")).map
        (fun l => (splitOnDelim delim l).map pyStrip)
      .ok (header_cols, dataRows)

/-- One output record of the join:
`{_id, omim_id, omim_disease, medgen_concept_id, medgen_disease_info}`. -/
structure OutputRecord where
  _id : String
  omim_id : String
  omim_disease : String
  medgen_concept_id : String
  medgen_disease_info : String
deriving DecidableEq, Repr

/-- The local helper `get(row, name)` of `build_list_of_dicts`:
case-insensitive column lookup, empty string when the column is
missing. -/
def getCol (cols : List String) (row : List String) (name : String) : String :=
  match resolveCol cols (pyLower name) with
  | some i => row.getD i ""
  | none => ""

/-- The `medgen_disease_info` computation of `build_list_of_dicts`
(source lines 176-181): look up `OMIM_CUI` with default `"NA"`, then, if
the result is falsy (empty) and `HPO_CUI` is truthy, fall back to an
`HPO_CUI` lookup with default `"NA"`. -/
def diseaseInfo (m : List (String × String)) (omim_cui hpo_cui : String) : String :=
  let info := mapGetD m omim_cui "NA"
  if info = "" ∧ hpo_cui ≠ "" then mapGetD m hpo_cui "NA" else info

/-- The row loop of `build_list_of_dicts`, with the seen-CUI set `ss`
explicit.  A row is skipped when all its cells strip to empty, when
`MIM_number` or `OMIM_CUI` is empty, or when `OMIM_CUI` was already
seen; otherwise its CUI is added to `ss` and a record is emitted. -/
def buildAux (cols : List String) (m : List (String × String)) :
    List (List String) → List String → List OutputRecord
  | [], _ => []
  | row :: rest, ss =>
    if ∀ x ∈ row, pyStrip x = "" then
      buildAux cols m rest ss
    else
      let omim_cui := getCol cols row "OMIM_CUI"
      let mim_number := getCol cols row "MIM_number"
      let omim_name := getCol cols row "OMIM_name"
      let hpo_cui := getCol cols row "HPO_CUI"
      if mim_number = "" ∨ omim_cui = "" then
        buildAux cols m rest ss
      else if omim_cui ∈ ss then
        buildAux cols m rest ss
      else
        { _id := mim_number
          omim_id := mim_number
          omim_disease := omim_name
          medgen_concept_id := omim_cui
          medgen_disease_info := diseaseInfo m omim_cui hpo_cui } ::
          buildAux cols m rest (omim_cui :: ss)

/-- `build_list_of_dicts(mapping_df, cui_def_map)`: run the row loop
with an initially empty seen-CUI set. -/
def build_list_of_dicts (cols : List String) (rows : List (List String))
    (m : List (String × String)) : List OutputRecord :=
  buildAux cols m rows []

/-- The record assembled from one mapping row (the `entry` dict of the
source). -/
def recordOf (cols : List String) (m : List (String × String))
    (row : List String) : OutputRecord :=
  { _id := getCol cols row "MIM_number"
    omim_id := getCol cols row "MIM_number"
    omim_disease := getCol cols row "OMIM_name"
    medgen_concept_id := getCol cols row "OMIM_CUI"
    medgen_disease_info := diseaseInfo m (getCol cols row "OMIM_CUI") (getCol cols row "HPO_CUI") }

/-- Spec-side selection rule (from the spec's words, for comparison with
the code): a row qualifies iff it is not all-empty after trimming, its
`MIM_number` and `OMIM_CUI` are non-empty, and its `OMIM_CUI` did not
appear in an earlier qualifying row; qualifying rows are kept in first
seen order. -/
def specQualifyingRows (cols : List String) :
    List (List String) → List String → List (List String)
  | [], _ => []
  | row :: rest, seenCuis =>
    if (¬ ∀ x ∈ row, pyStrip x = "") ∧ getCol cols row "MIM_number" ≠ "" ∧
        getCol cols row "OMIM_CUI" ≠ "" ∧ getCol cols row "OMIM_CUI" ∉ seenCuis then
      row :: specQualifyingRows cols rest (getCol cols row "OMIM_CUI" :: seenCuis)
    else
      specQualifyingRows cols rest seenCuis

/-! ### Helper lemmas -/

theorem dropWhile_idem (p : Char → Bool) (l : List Char) :
    (l.dropWhile p).dropWhile p = l.dropWhile p := by
  induction l with
  | nil => rfl
  | cons c cs ih =>
    by_cases hp : p c
    · simp only [ List.dropWhile_cons, hp, if_true]
      exact ih
    · simp [ List.dropWhile_cons, hp]

theorem dropWhile_head_not (p : Char → Bool) (l : List Char) (c : Char) (l' : List Char)
    (h : l.dropWhile p = c :: l') : p c = false := by
  induction l with
  | nil => simp at h
  | cons x xs ih =>
    rw [ List.dropWhile_cons] at h
    by_cases hp : p x
    · rw [if_pos hp] at h
      exact ih h
    · rw [if_neg hp] at h
      injection h with h1 _
      subst h1
      simpa using hp

theorem stripLeft_stripLeft (l : List Char) : stripLeft (stripLeft l) = stripLeft l :=
  dropWhile_idem _ l

theorem pyStripList_idem (l : List Char) : pyStripList (pyStripList l) = pyStripList l := by
  unfold pyStripList
  set a := stripLeft l with ha
  set b := stripLeft a.reverse with hb
  have h1 : stripLeft b.reverse = b.reverse := by
    cases hc : b.reverse with
    | nil => simp [stripLeft, hc]
    | cons c t =>
      have hsuff : b <:+ a.reverse := by
        rw [hb]; exact List.dropWhile_suffix _
      have hpre : b.reverse <+: a := by
        have := List.reverse_prefix.mpr hsuff
        simpa using this
      obtain ⟨u, hu⟩ := hpre
      rw [hc] at hu
      have hhead : Char.isWhitespace c = false := by
        apply dropWhile_head_not Char.isWhitespace l c (t ++ u)
        rw [ha] at hu
        simpa [stripLeft] using hu.symm
      simp [stripLeft, List.dropWhile_cons, hhead]
  rw [h1, List.reverse_reverse, hb, stripLeft_stripLeft]

theorem pyStrip_idem (s : String) : pyStrip (pyStrip s) = pyStrip s := by
  unfold pyStrip
  exact congrArg String.mk (pyStripList_idem s.data)

theorem mem_dedupFirstAux {x : String × String} {seen : List String}
    {l : List (String × String)} (h : x ∈ dedupFirstAux seen l) : x ∈ l := by
  induction l generalizing seen with
  | nil => simp [dedupFirstAux] at h
  | cons r rs ih =>
    rw [dedupFirstAux] at h
    by_cases hr : r.1 ∈ seen
    · rw [if_pos hr] at h
      exact List.mem_cons_of_mem _ (ih h)
    · rw [if_neg hr] at h
      rcases List.mem_cons.mp h with h | h
      · exact h ▸ List.mem_cons_self _ _
      · exact List.mem_cons_of_mem _ (ih h)

theorem mapGet?_dedupFirstAux (k : String) (seen : List String)
    (l : List (String × String)) (hk : k ∉ seen) :
    mapGet? (dedupFirstAux seen l) k = mapGet? l k := by
  induction l generalizing seen with
  | nil => rfl
  | cons r rs ih =>
    rw [dedupFirstAux]
    by_cases hr : r.1 ∈ seen
    · rw [if_pos hr]
      have hne : (r.1 == k) = false := by
        simp only [beq_eq_false_iff_ne, ne_eq]
        intro h
        exact hk (h ▸ hr)
      rw [ih seen hk]
      simp [mapGet?, List.find?, hne]
    · rw [if_neg hr]
      by_cases heq : r.1 == k
      · simp [mapGet?, List.find?, heq]
      · have hk' : k ∉ r.1 :: seen := by
          simp only [List.mem_cons, not_or]
          refine ⟨fun h => ?_, hk⟩
          simp only [beq_iff_eq] at heq
          exact heq h.symm
        have heq' : (r.1 == k) = false := by simpa using heq
        simp only [mapGet?, List.find?, heq']
        exact ih (r.1 :: seen) hk'

theorem mapGet?_dedupFirst (l : List (String × String)) (k : String) :
    mapGet? (dedupFirst l) k = mapGet? l k :=
  mapGet?_dedupFirstAux k [] l (by simp)

theorem mem_mgdefFilterDedup {p : String × String} {rows : List (String × String)}
    (h : p ∈ mgdefFilterDedup rows) :
    p.1 ≠ "" ∧ p.2 ≠ "" ∧ ∃ r ∈ rows, p = stripRow r := by
  unfold mgdefFilterDedup dedupFirst at h
  have h1 := mem_dedupFirstAux h
  obtain ⟨hmem, hcond⟩ := List.mem_filter.mp h1
  simp only [Bool.and_eq_true, bne_iff_ne, ne_eq] at hcond
  obtain ⟨r, hr, hpr⟩ := List.mem_map.mp hmem
  exact ⟨hcond.1, hcond.2, r, hr, hpr.symm⟩

theorem mapGetD_ne_of_values_ne {m : List (String × String)}
    (hm : ∀ p ∈ m, p.2 ≠ "") (cui : String) : mapGetD m cui "NA" ≠ "" := by
  unfold mapGetD mapGet?
  cases hf : m.find? (fun p => p.1 == cui) with
  | none => simp
  | some q =>
    simp only [Option.map_some', Option.getD_some]
    exact hm q (List.mem_of_find?_eq_some hf)

theorem diseaseInfo_eq_of_values_ne {m : List (String × String)}
    (hm : ∀ p ∈ m, p.2 ≠ "") (cui hpo : String) :
    diseaseInfo m cui hpo = mapGetD m cui "NA" := by
  unfold diseaseInfo
  exact if_neg (fun hc => mapGetD_ne_of_values_ne hm cui hc.1)

theorem mgdefFilterDedup_values_ne (rows : List (String × String)) :
    ∀ p ∈ mgdefFilterDedup rows, p.2 ≠ "" :=
  fun _ hp => (mem_mgdefFilterDedup hp).2.1

theorem buildAux_eq_map_recordOf (cols : List String) (m : List (String × String))
    (rows : List (List String)) (ss : List String) :
    buildAux cols m rows ss = (specQualifyingRows cols rows ss).map (recordOf cols m) := by
  induction rows generalizing ss with
  | nil => rfl
  | cons row rest ih =>
    simp only [buildAux, specQualifyingRows]
    by_cases h1 : ∀ x ∈ row, pyStrip x = ""
    · rw [if_pos h1, if_neg (fun hc => hc.1 h1)]
      exact ih ss
    · rw [if_neg h1]
      by_cases h2 : getCol cols row "MIM_number" = "" ∨ getCol cols row "OMIM_CUI" = ""
      · rw [if_pos h2, if_neg (fun hc => h2.elim hc.2.1 hc.2.2.1)]
        exact ih ss
      · push_neg at h2
        rw [if_neg (not_or.mpr ⟨h2.1, h2.2⟩)]
        by_cases h3 : getCol cols row "OMIM_CUI" ∈ ss
        · rw [if_pos h3, if_neg (fun hc => hc.2.2.2 h3)]
          exact ih ss
        · rw [if_neg h3, if_pos ⟨h1, h2.1, h2.2, h3⟩]
          rw [List.map_cons]
          exact congrArg _ (ih _)

theorem buildAux_concept_ids (cols : List String) (m : List (String × String))
    (rows : List (List String)) (ss : List String) :
    ((buildAux cols m rows ss).map (fun r => r.medgen_concept_id)).Nodup ∧
      ∀ r ∈ buildAux cols m rows ss, r.medgen_concept_id ∉ ss := by
  induction rows generalizing ss with
  | nil => exact ⟨by simp [buildAux], by simp [buildAux]⟩
  | cons row rest ih =>
    simp only [buildAux]
    by_cases h1 : ∀ x ∈ row, pyStrip x = ""
    · rw [if_pos h1]
      exact ih ss
    · rw [if_neg h1]
      by_cases h2 : getCol cols row "MIM_number" = "" ∨ getCol cols row "OMIM_CUI" = ""
      · rw [if_pos h2]
        exact ih ss
      · rw [if_neg h2]
        by_cases h3 : getCol cols row "OMIM_CUI" ∈ ss
        · rw [if_pos h3]
          exact ih ss
        · rw [if_neg h3]
          obtain ⟨ihnd, ihnotin⟩ := ih (getCol cols row "OMIM_CUI" :: ss)
          constructor
          · simp only [List.map_cons, List.nodup_cons]
            refine ⟨fun hmem => ?_, ihnd⟩
            obtain ⟨r, hr, heq⟩ := List.mem_map.mp hmem
            exact ihnotin r hr (heq ▸ List.mem_cons_self _ _)
          · intro r hr
            rcases List.mem_cons.mp hr with heq | hr'
            · rw [heq]
              exact h3
            · exact fun hss => ihnotin r hr' (List.mem_cons_of_mem _ hss)

theorem buildAux_info_shape (cols : List String) (m : List (String × String))
    (rows : List (List String)) (ss : List String) :
    ∀ r ∈ buildAux cols m rows ss,
      ∃ hpo, r.medgen_disease_info = diseaseInfo m r.medgen_concept_id hpo := by
  induction rows generalizing ss with
  | nil => simp [buildAux]
  | cons row rest ih =>
    simp only [buildAux]
    by_cases h1 : ∀ x ∈ row, pyStrip x = ""
    · rw [if_pos h1]
      exact ih ss
    · rw [if_neg h1]
      by_cases h2 : getCol cols row "MIM_number" = "" ∨ getCol cols row "OMIM_CUI" = ""
      · rw [if_pos h2]
        exact ih ss
      · rw [if_neg h2]
        by_cases h3 : getCol cols row "OMIM_CUI" ∈ ss
        · rw [if_pos h3]
          exact ih ss
        · rw [if_neg h3]
          intro r hr
          rcases List.mem_cons.mp hr with heq | hr'
          · rw [heq]
            exact ⟨getCol cols row "HPO_CUI", rfl⟩
          · exact ih _ r hr'

theorem resolveCol_eq_none_iff (cols : List String) (lname : String) :
    resolveCol cols lname = none ↔ ¬ ∃ c ∈ cols, pyLower c = lname := by
  unfold resolveCol
  cases hl : (cols.filter (fun c => pyLower c == lname)).getLast? with
  | none =>
    rw [List.getLast?_eq_none_iff, List.filter_eq_nil_iff] at hl
    simp only [true_iff]
    intro ⟨c, hc, hlc⟩
    exact hl c hc (by simpa using hlc)
  | some actual =>
    have hmem := List.mem_of_getLast?_eq_some hl
    obtain ⟨hin, hmatch⟩ := List.mem_filter.mp hmem
    have hidx : cols.findIdx? (fun c => c == actual) ≠ none := by
      intro hnone
      rw [List.findIdx?_eq_none_iff] at hnone
      have := hnone actual hin
      simp at this
    constructor
    · intro h
      exact absurd h hidx
    · intro h
      exact absurd ⟨actual, hin, by simpa using hmatch⟩ h

/-! ### Claims -/

/-- C1: a mapping-table row produces an output record if and only if it
is not all-empty after trimming, its `MIM_number` is non-empty, its
`OMIM_CUI` is non-empty, and its `OMIM_CUI` did not appear in an earlier
qualifying row; the output list is exactly the records of the
qualifying rows, in first-seen order. -/
theorem build_list_of_dicts_eq_qualifying_records (cols : List String)
    (rows : List (List String)) (m : List (String × String)) :
    build_list_of_dicts cols rows m =
      (specQualifyingRows cols rows []).map (recordOf cols m) :=
  buildAux_eq_map_recordOf cols m rows []

/-- C2: in every output list of the join the `medgen_concept_id` values
are pairwise distinct (the seen-CUI set deduplicates them). -/
theorem build_list_of_dicts_concept_ids_distinct (cols : List String)
    (rows : List (List String)) (m : List (String × String)) :
    ((build_list_of_dicts cols rows m).map
      (fun r => r.medgen_concept_id)).Pairwise (fun a b => a ≠ b) :=
  (buildAux_concept_ids cols m rows []).1

/-- C3: against a definition table built by the definition-table parser
(whose stored definitions are non-empty), the `HPO_CUI` fallback lookup
never executes: `medgen_disease_info` is the table value for `OMIM_CUI`,
or the literal "NA" when absent, and the `HPO_CUI` argument never
influences the result. -/
theorem hpo_fallback_is_dead_code (defRows : List (String × String))
    (m : List (String × String)) (hm : m = mgdefFilterDedup defRows)
    (cui hpo hpo' : String) :
    diseaseInfo m cui hpo = mapGetD m cui "NA" ∧
      diseaseInfo m cui hpo = diseaseInfo m cui hpo' := by
  subst hm
  have h := mgdefFilterDedup_values_ne defRows
  exact ⟨diseaseInfo_eq_of_values_ne h cui hpo,
    (diseaseInfo_eq_of_values_ne h cui hpo).trans
      (diseaseInfo_eq_of_values_ne h cui hpo').symm⟩

/-- C3 witness: with definition table {"C1": "def1"}, a row whose
`OMIM_CUI` is absent but whose `HPO_CUI` is present still gets "NA" —
the fallback does not fire. -/
theorem hpo_fallback_is_dead_code_witness :
    diseaseInfo (mgdefFilterDedup [("C1", "def1")]) "C2" "C1" = "NA" :=
  ((hpo_fallback_is_dead_code [("C1", "def1")] _ rfl "C2" "C1" "H9").1).trans (by decide)

/-- C4 counterexample: for rows [("C1", " "), ("C1", "def2")] the first
row whose trimmed CUI is "C1" has DEF " " (trimmed ""), yet the table
maps "C1" to "def2": rows with empty trimmed DEF are filtered out
BEFORE deduplication, so the first such row in file order does not win. -/
theorem dedup_first_file_row_counterexample :
    mapGet? (mgdefFilterDedup [("C1", " "), ("C1", "def2")]) "C1" = some "def2" ∧
      "def2" ≠ " " ∧ "def2" ≠ pyStrip " " := by
  decide

/-- C4 (amended): the table maps a CUI to the trimmed DEF of the first
row — among the rows that survive the empty-CUI/empty-DEF filter — whose
trimmed CUI equals it, and has no entry when no such surviving row
exists. -/
theorem dedup_keeps_first_surviving_occurrence (rows : List (String × String))
    (cui : String) :
    mapGet? (mgdefFilterDedup rows) cui =
      (((rows.map stripRow).filter (fun r => r.1 != "" && r.2 != "")).find?
        (fun r => r.1 == cui)).map (fun r => r.2) := by
  unfold mgdefFilterDedup
  rw [mapGet?_dedupFirst]
  rfl

/-- C5: every entry of the definition table has a non-empty key and a
non-empty value, and both are trimmed strings (stripping them again
changes nothing); a row whose trimmed CUI or trimmed DEF is empty is
never stored. -/
theorem definition_table_entries_trimmed_nonempty (rows : List (String × String))
    (p : String × String) (hp : p ∈ mgdefFilterDedup rows) :
    p.1 ≠ "" ∧ p.2 ≠ "" ∧ pyStrip p.1 = p.1 ∧ pyStrip p.2 = p.2 := by
  obtain ⟨h1, h2, r, _, hpr⟩ := mem_mgdefFilterDedup hp
  refine ⟨h1, h2, ?_, ?_⟩ <;> rw [hpr] <;> simp [stripRow, pyStrip_idem]

/-- C5 witness: the table of [(" C1 ", " def1 ")] contains ("C1", "def1"),
which is non-empty and trimmed. -/
theorem definition_table_entries_trimmed_nonempty_witness :
    ("C1" : String) ≠ "" ∧ ("def1" : String) ≠ "" ∧
      pyStrip "C1" = "C1" ∧ pyStrip "def1" = "def1" :=
  definition_table_entries_trimmed_nonempty [(" C1 ", " def1 ")] ("C1", "def1") (by decide)

/-- C6: every record the join emits against a definition table carries
`medgen_disease_info` = "NA" when its `OMIM_CUI` (= `medgen_concept_id`)
has no table entry, and the entry's definition text when it has one. -/
theorem emitted_disease_info_is_lookup_or_na (cols : List String)
    (rows : List (List String)) (defRows : List (String × String))
    (m : List (String × String)) (hm : m = mgdefFilterDedup defRows)
    (r : OutputRecord) (hr : r ∈ build_list_of_dicts cols rows m) :
    (mapGet? m r.medgen_concept_id = none → r.medgen_disease_info = "NA") ∧
      (∀ d, mapGet? m r.medgen_concept_id = some d → r.medgen_disease_info = d) := by
  subst hm
  obtain ⟨hpo, hinfo⟩ := buildAux_info_shape cols _ rows [] r hr
  rw [hinfo, diseaseInfo_eq_of_values_ne (mgdefFilterDedup_values_ne defRows)]
  constructor
  · intro hnone
    simp [mapGetD, hnone]
  · intro d hd
    simp [mapGetD, hd]

/-- C6 witness: with definition table {"C1": "def1"}, the single emitted
record for a row with OMIM_CUI = "C9" (absent) satisfies both clauses. -/
theorem emitted_disease_info_is_lookup_or_na_witness :
    (mapGet? (mgdefFilterDedup [("C1", "def1")]) "C9" = none → ("NA" : String) = "NA") ∧
      (∀ d, mapGet? (mgdefFilterDedup [("C1", "def1")]) "C9" = some d → ("NA" : String) = d) :=
  emitted_disease_info_is_lookup_or_na ["MIM_number", "OMIM_name", "OMIM_CUI", "HPO_CUI"]
    [["1", "A", "C9", "H1"]] [("C1", "def1")] _ rfl
    ⟨"1", "1", "A", "C9", "NA"⟩ (by decide)

/-- C7: delimiter inference returns tab if the header contains a tab,
else comma if it contains a comma, else pipe if it contains a pipe, else
tab. -/
theorem delim_inference_precedence (s : String) :
    detect_delim_from_header s =
      if '\t' ∈ s.data then "\t"
      else if ',' ∈ s.data then ","
      else if '|' ∈ s.data then "|"
      else "\t" := by
  simp [detect_delim_from_header, charIn, List.contains, List.elem_eq_mem]

/-- C8: the definitions-file parser fails with MissingColumns iff, after
case-insensitive matching, the parsed header lacks a column named CUI or
a column named DEF; the error payload is exactly the list of columns
actually found. -/
theorem mgdef_missing_columns_iff (lines : List String)
    (h : dropBlank lines ≠ []) :
    ((∃ found, read_mgdef_map lines = .error (.missingColumns found)) ↔
      (¬ ∃ c ∈ mgdefHeaderCols lines, pyLower c = "cui") ∨
        (¬ ∃ c ∈ mgdefHeaderCols lines, pyLower c = "def")) ∧
      ∀ found, read_mgdef_map lines = .error (.missingColumns found) →
        found = mgdefHeaderCols lines := by
  obtain ⟨headerRaw, rest, hd⟩ : ∃ a t, dropBlank lines = a :: t := by
    cases hdb : dropBlank lines with
    | nil => exact absurd hdb h
    | cons a t => exact ⟨a, t, rfl⟩
  unfold read_mgdef_map mgdefHeaderCols
  rw [hd]
  dsimp only
  set C := splitOnDelim (detect_delim_from_header (pyStrip headerRaw)) headerRaw with hC
  cases hcui : resolveCol C "cui" with
  | none =>
    refine ⟨⟨fun _ => Or.inl ((resolveCol_eq_none_iff C "cui").mp hcui),
      fun _ => ⟨C, rfl⟩⟩, fun found hf => ?_⟩
    simp only [Except.error.injEq, TableError.missingColumns.injEq] at hf
    exact hf.symm
  | some icui =>
    cases hdef : resolveCol C "def" with
    | none =>
      refine ⟨⟨fun _ => Or.inr ((resolveCol_eq_none_iff C "def").mp hdef),
        fun _ => ⟨C, rfl⟩⟩, fun found hf => ?_⟩
      simp only [Except.error.injEq, TableError.missingColumns.injEq] at hf
      exact hf.symm
    | some idef =>
      refine ⟨⟨fun ⟨found, hf⟩ => absurd hf (by simp), fun hor => ?_⟩,
        fun found hf => absurd hf (by simp)⟩
      rcases hor with hn | hn
      · exact absurd ((resolveCol_eq_none_iff C "cui").mpr hn) (by rw [hcui]; simp)
      · exact absurd ((resolveCol_eq_none_iff C "def").mpr hn) (by rw [hdef]; simp)

/-- C8 witness: a definitions file whose header is "ID,DEF" lacks a CUI
column, so the parser fails with MissingColumns naming ["ID", "DEF"]. -/
theorem mgdef_missing_columns_iff_witness :
    ((∃ found, read_mgdef_map ["ID,DEF"] = .error (.missingColumns found)) ↔
      (¬ ∃ c ∈ mgdefHeaderCols ["ID,DEF"], pyLower c = "cui") ∨
        (¬ ∃ c ∈ mgdefHeaderCols ["ID,DEF"], pyLower c = "def")) ∧
      ∀ found, read_mgdef_map ["ID,DEF"] = .error (.missingColumns found) →
        found = mgdefHeaderCols ["ID,DEF"] :=
  mgdef_missing_columns_iff ["ID,DEF"] (by decide)

/-- C9: join deduplication is keyed solely on OMIM_CUI, not MIM_number:
two rows sharing MIM_number "100" with distinct unseen CUIs both emit
records, so the _id / omim_id values of the output are not unique. -/
theorem dedup_keyed_on_cui_not_mim :
    (build_list_of_dicts ["MIM_number", "OMIM_name", "OMIM_CUI", "HPO_CUI"]
        [["100", "A", "C1", "H1"], ["100", "B", "C2", "H2"]] []).map
        (fun r => (r._id, r.omim_id, r.medgen_concept_id)) =
      [("100", "100", "C1"), ("100", "100", "C2")] ∧
      ¬ ((build_list_of_dicts ["MIM_number", "OMIM_name", "OMIM_CUI", "HPO_CUI"]
          [["100", "A", "C1", "H1"], ["100", "B", "C2", "H2"]] []).map
          (fun r => r._id)).Nodup ∧
      ¬ ((build_list_of_dicts ["MIM_number", "OMIM_name", "OMIM_CUI", "HPO_CUI"]
          [["100", "A", "C1", "H1"], ["100", "B", "C2", "H2"]] []).map
          (fun r => r.omim_id)).Nodup := by
  decide

/-- C10: the leading-'#' comment marker is stripped only by the
mapping-file parser: on the header "#CUI,DEF" the definitions parser
keeps the column name "#CUI", which does not case-insensitively match
"CUI", and fails with MissingColumns naming ["#CUI", "DEF"], while the
mapping parser strips the marker and yields columns ["CUI", "DEF"]. -/
theorem hash_marker_stripped_only_for_mapping_table :
    read_mgdef_map ["#CUI,DEF", "C0001,d"] = .error (.missingColumns ["#CUI", "DEF"]) ∧
      read_medgen_mapping ["#CUI,DEF", "C0001,d"] = .ok (["CUI", "DEF"], [["C0001", "d"]]) ∧
      pyLower "#CUI" ≠ "cui" := by
  decide
